import Mathlib

/-!
# Verification of the secure-password-storage demo

Shallow embedding of `src/main.rs`: the `Language` enum with its
`FromStr` implementation, the `Password` credential (salt + hash) with its
hand-written redacting `Debug` implementation, the `PasswordCypher`
(a wrapper around an Argon2 configuration) with `encode` / `try_password`,
and the `User` record with its id-only `PartialEq` and
`try_password_with` delegation.

Modelling conventions:
* Byte sequences (`&[u8]`, `[u8; 16]`, `[u8; 32]`) are `List Nat` whose
  elements the embedding keeps below 256 where it produces them itself.
* `raw_text.as_bytes()` is modelled by taking plaintexts directly as byte
  lists.
* The external `argon2` crate's `Argon2<'a>` value is modelled by its
  parameter set (`Argon2`), and its `hash_password_into` primitive — an
  external collaborator, not code of this repository — is an explicit
  function argument `H : HashFn` to every operation that hashes.  The
  source calls `hash_password_into` with an output buffer; the model has
  `H` return the digest (`Except` for the `Result`).
* `OsRng` is modelled as a stream of bytes together with a read position;
  `OsRng::fill` of a 16-byte buffer reads the next 16 bytes of the stream
  (reduced mod 256, since the stream delivers `u8`s) and advances the
  position.
-/

namespace SecureApp

/-- The ten `Language` variants, in declaration order (src/main.rs lines 13-35). -/
inductive Language where
  | English
  | Chinese
  | Spanish
  | French
  | German
  | Japanese
  | Portuguese
  | Russian
  | Arabic
  | Korean
deriving DecidableEq, Repr

/-- Rust `ApplicationError` (src/main.rs lines 37-43). -/
inductive ApplicationError where
  | LanguageNotFound
  | PasswordHash (msg : String)
deriving DecidableEq, Repr

instance {ε α : Type} [DecidableEq ε] [DecidableEq α] : DecidableEq (Except ε α) := by
  intro a b
  cases a <;> cases b
  case ok.ok x y =>
    exact if h : x = y then .isTrue (by rw [h]) else .isFalse (by intro hc; cases hc; exact h rfl)
  case error.error x y =>
    exact if h : x = y then .isTrue (by rw [h]) else .isFalse (by intro hc; cases hc; exact h rfl)
  all_goals exact .isFalse (by intro hc; cases hc)

/-- Iteration order of the `strum` `EnumIter` derive: declaration order of the variants. -/
def Language.iter : List Language :=
  [.English, .Chinese, .Spanish, .French, .German, .Japanese, .Portuguese,
   .Russian, .Arabic, .Korean]

/-- The `lang` string property attached to each variant by `strum(props(lang = ...))`. -/
def Language.langProp : Language → String
  | .English => "en"
  | .Chinese => "zh"
  | .Spanish => "es"
  | .French => "fr"
  | .German => "de"
  | .Japanese => "ja"
  | .Portuguese => "pt"
  | .Russian => "ru"
  | .Arabic => "ar"
  | .Korean => "ko"

/-- The fixed set of language codes carried by the variants, in iteration
order. -/
def languageCodes : List String :=
  ["en", "zh", "es", "fr", "de", "ja", "pt", "ru", "ar", "ko"]

/-- Rust `Language::from_str` (src/main.rs lines 45-53): scan the variants in
iteration order for one whose `lang` property equals `s`, else
`LanguageNotFound`.  Every variant carries the property, so
`get_str("lang") == Some(s)` is `langProp l = s`. -/
def Language.fromStr (s : String) : Except ApplicationError Language :=
  match Language.iter.find? (fun l => l.langProp == s) with
  | some l => .ok l
  | none => .error .LanguageNotFound

/-- Rust `Password` (src/main.rs lines 55-59): a 16-byte salt and a 32-byte hash. -/
structure Password where
  salt : List Nat
  hash : List Nat
deriving DecidableEq, Repr

/-- The hand-written `fmt::Debug` for `Password` (src/main.rs lines 91-96):
`f.debug_struct("Password").finish()` prints the bare struct name and no
fields, whatever the field values are. -/
def Password.debugFmt (_self : Password) : String := "Password"

/-- The external `argon2::Argon2` configuration, reduced to its tunable cost
parameters (memory cost in KiB, iteration count, lanes). -/
structure Argon2 where
  mCost : Nat
  tCost : Nat
  pCost : Nat
deriving DecidableEq, Repr

/-- Rust `Argon2::default()`: the argon2 crate's recommended baseline
(m = 19456 KiB, t = 2, p = 1). -/
def Argon2.default : Argon2 := ⟨19456, 2, 1⟩

/-- The behaviour of the external `hash_password_into` primitive: from the
configured parameters, the password bytes and the salt bytes, either a
digest or an error message.  The development is parametric in it; it is a
trusted external collaborator, not repository code. -/
abbrev HashFn := Argon2 → List Nat → List Nat → Except String (List Nat)

/-- Rust `PasswordCypher` (src/main.rs lines 61-64): owns an `Argon2` configuration. -/
structure PasswordCypher where
  argon : Argon2
deriving DecidableEq, Repr

/-- Rust `PasswordCypher::default()`: the derived `Default` defaults the `argon` field. -/
def PasswordCypher.default : PasswordCypher := ⟨Argon2.default⟩

/-- The `OsRng` cryptographic random source, modelled as a byte stream with a
read position. -/
structure OsRng where
  stream : Nat → Nat
  pos : Nat

/-- The 16 bytes standing at the generator's current read position. -/
def OsRng.draw16 (r : OsRng) : List Nat :=
  (List.range 16).map (fun i => r.stream (r.pos + i) % 256)

/-- Rust `OsRng::fill` of a `[u8; 16]` buffer: the next 16 stream bytes, and
the advanced generator. -/
def OsRng.fill16 (r : OsRng) : List Nat × OsRng :=
  (r.draw16, ⟨r.stream, r.pos + 16⟩)

/-- Rust `PasswordCypher::encode` (src/main.rs lines 67-75): draw a fresh 16-byte
salt from `OsRng`, hash the plaintext with `self.argon` into a digest, map a
primitive failure to `ApplicationError::PasswordHash`, else return the
`Password { salt, hash }`.  The generator state is threaded explicitly. -/
def PasswordCypher.encode (H : HashFn) (self : PasswordCypher) (rawText : List Nat)
    (rng : OsRng) : Except ApplicationError Password × OsRng :=
  let (salt, rng2) := rng.fill16
  match H self.argon rawText salt with
  | .ok hash => (.ok ⟨salt, hash⟩, rng2)
  | .error e => (.error (.PasswordHash e), rng2)

/-- Rust `PasswordCypher::try_password` (src/main.rs lines 77-88): build
`Argon2::default()` — NOT `self.argon` — recompute the digest of the
candidate over the stored salt, map a primitive failure to
`ApplicationError::PasswordHash`, else compare the stored hash with the
recomputed digest for byte-for-byte equality. -/
def PasswordCypher.tryPassword (H : HashFn) (_self : PasswordCypher)
    (password : Password) (rawText : List Nat) : Except ApplicationError Bool :=
  let argon := Argon2.default
  match H argon rawText password.salt with
  | .ok hash => .ok (password.hash == hash)
  | .error e => .error (.PasswordHash e)

/-- The verification path the spec describes for `verify`: recompute the digest
with the *caller's configured* parameters (`self.argon`), i.e. "the same
algorithm parameters as `encode`".  Stated from the spec's words, for
comparison with `tryPassword` above. -/
def PasswordCypher.tryPasswordWithParams (H : HashFn) (params : Argon2)
    (password : Password) (rawText : List Nat) : Except ApplicationError Bool :=
  match H params rawText password.salt with
  | .ok hash => .ok (password.hash == hash)
  | .error e => .error (.PasswordHash e)

/-- Rust `User` (src/main.rs lines 98-107). -/
structure User where
  id : Int
  username : String
  email : String
  password : Password
  language : Language

/-- The hand-written `PartialEq` for `User` (src/main.rs lines 109-113):
equality is `self.id == other.id` alone. -/
def User.eq (self other : User) : Bool := self.id == other.id

/-- Rust `User::try_password_with` (src/main.rs lines 116-122): delegate to
`cypher.try_password(&self.password, raw_password)`. -/
def User.tryPasswordWith (H : HashFn) (self : User) (cypher : PasswordCypher)
    (rawPassword : List Nat) : Except ApplicationError Bool :=
  cypher.tryPassword H self.password rawPassword

/-- A concrete, parameter-sensitive instance of the hashing primitive, used
only to instantiate witnesses and counterexamples: the "digest" records the
configured iteration count and the message length, so distinct parameter
sets (and distinct message lengths) give distinct digests, as the real
Argon2 does up to negligible collision probability. -/
def testHash : HashFn := fun params msg _salt => .ok [params.tCost, msg.length]

/-- A concrete always-succeeding primitive with a constant digest. -/
def constHash : HashFn := fun _ _ _ => .ok (List.replicate 32 7)

/-- A concrete generator state: the identity stream, position 0. -/
def rngId : OsRng := ⟨fun n => n, 0⟩

/-- A concrete generator state: the all-zero stream, position 0. -/
def rngZero : OsRng := ⟨fun _ => 0, 0⟩

/-- Unfolding equation for `tryPassword`: the recomputation happens under the
crate-default parameters, whatever the cypher's own configuration. -/
theorem tryPassword_eq (H : HashFn) (c : PasswordCypher) (p : Password)
    (s : List Nat) :
    PasswordCypher.tryPassword H c p s =
      match H Argon2.default s p.salt with
      | .ok d => .ok (p.hash == d)
      | .error e => .error (.PasswordHash e) := rfl

/-- Characterisation of a successful `encode`: the stored salt is the 16 bytes
drawn from the generator, and the stored hash is the primitive's digest of the
plaintext over that salt under the cypher's configured parameters. -/
theorem encode_ok_iff (H : HashFn) (c : PasswordCypher) (P : List Nat)
    (rng : OsRng) (S : Password) :
    (PasswordCypher.encode H c P rng).1 = .ok S ↔
      S.salt = rng.draw16 ∧ H c.argon P rng.draw16 = .ok S.hash := by
  obtain ⟨ssalt, shash⟩ := S
  cases hH : H c.argon P rng.draw16 with
  | ok d =>
      simp only [PasswordCypher.encode, OsRng.fill16, hH, Except.ok.injEq,
        Password.mk.injEq]
      constructor
      · rintro ⟨h1, h2⟩
        exact ⟨h1.symm, h2⟩
      · rintro ⟨h1, h2⟩
        exact ⟨h1.symm, h2⟩
  | error e =>
      simp [PasswordCypher.encode, OsRng.fill16, hH]

/-- The generator state returned by `encode`: the same stream, advanced 16
bytes, whether or not the primitive succeeded. -/
theorem encode_snd (H : HashFn) (c : PasswordCypher) (P : List Nat)
    (rng : OsRng) :
    (PasswordCypher.encode H c P rng).2 = ⟨rng.stream, rng.pos + 16⟩ := by
  cases hH : H c.argon P rng.draw16 <;>
    simp [PasswordCypher.encode, OsRng.fill16, hH]

/-- Claim C4: the result of `try_password` is independent of the
`PasswordCypher`'s configured Argon2 parameters — any two cyphers, however
constructed, give the same result on the same stored password and candidate,
because `try_password` builds `Argon2::default()` and never reads
`self.argon`. -/
theorem c4_try_password_param_independent (H : HashFn) (c1 c2 : PasswordCypher)
    (p : Password) (s : List Nat) :
    PasswordCypher.tryPassword H c1 p s = PasswordCypher.tryPassword H c2 p s := rfl

/-- Claim C5: the `Debug` representation of a stored `Password` is the same
fixed redacted string for any two values, whatever their salt and hash bytes,
and that string is the bare struct name `"Password"` containing no field
bytes. -/
theorem c5_debug_redacted (p q : Password) :
    p.debugFmt = q.debugFmt ∧ p.debugFmt = "Password" := ⟨rfl, rfl⟩

/-- Claim C7: equality of two `User` records is determined solely by their
numeric id — `u1 == u2` holds exactly when `u1.id = u2.id`, regardless of
username, email, locale or stored credential, so users with distinct ids are
never equal. -/
theorem c7_user_eq_iff_id (u1 u2 : User) :
    User.eq u1 u2 = true ↔ u1.id = u2.id := by
  simp [User.eq]

/-- Claim C9: `User::try_password_with` is a pure delegation — it returns
exactly the result of `cypher.try_password` applied to the user's stored
password and the candidate. -/
theorem c9_try_password_with_delegates (H : HashFn) (u : User)
    (c : PasswordCypher) (s : List Nat) :
    User.tryPasswordWith H u c s = PasswordCypher.tryPassword H c u.password s := rfl

/-- Success case of `try_password`: on a succeeding primitive the answer is
`Ok` of the byte-for-byte comparison. -/
theorem tryPassword_ok (H : HashFn) (c : PasswordCypher) (p : Password)
    (s d : List Nat) (h : H Argon2.default s p.salt = .ok d) :
    PasswordCypher.tryPassword H c p s = .ok (p.hash == d) := by
  rw [tryPassword_eq, h]

/-- Failure case of `try_password`: a primitive failure is surfaced as
`ApplicationError::PasswordHash` carrying the primitive's message. -/
theorem tryPassword_error (H : HashFn) (c : PasswordCypher) (p : Password)
    (s : List Nat) (msg : String) (h : H Argon2.default s p.salt = .error msg) :
    PasswordCypher.tryPassword H c p s = .error (.PasswordHash msg) := by
  rw [tryPassword_eq, h]

/-- Claim C6: `try_password` returns `Ok(true)` iff the recomputed digest
equals the stored hash byte-for-byte, returns `Ok (hash == digest)` (so
`Ok(false)`, never an error) whenever the primitive succeeds, and returns
`Err(ApplicationError::PasswordHash ...)` exactly when the underlying hashing
primitive itself fails. -/
theorem c6_try_password_result_taxonomy (H : HashFn) (c : PasswordCypher)
    (p : Password) (s : List Nat) :
    (∀ d, H Argon2.default s p.salt = .ok d →
        PasswordCypher.tryPassword H c p s = .ok (p.hash == d)) ∧
      (PasswordCypher.tryPassword H c p s = .ok true ↔
        ∃ d, H Argon2.default s p.salt = .ok d ∧ p.hash = d) ∧
      (∀ e, PasswordCypher.tryPassword H c p s = .error e ↔
        ∃ msg, H Argon2.default s p.salt = .error msg ∧ e = .PasswordHash msg) := by
  cases hH : H Argon2.default s p.salt with
  | ok d =>
      have ht := tryPassword_ok H c p s d hH
      refine ⟨?_, ?_, ?_⟩
      · intro d2 h
        cases Except.ok.inj h
        exact ht
      · rw [ht]
        constructor
        · intro h
          exact ⟨d, rfl, beq_iff_eq.mp (Except.ok.inj h)⟩
        · rintro ⟨d2, hd, hph⟩
          cases Except.ok.inj hd
          rw [hph, beq_self_eq_true]
      · intro e
        rw [ht]
        constructor
        · intro h
          cases h
        · rintro ⟨msg, hmsg, _⟩
          cases hmsg
  | error msg =>
      have ht := tryPassword_error H c p s msg hH
      refine ⟨?_, ?_, ?_⟩
      · intro d2 h
        cases h
      · rw [ht]
        constructor
        · intro h
          cases h
        · rintro ⟨d2, hd, _⟩
          cases hd
      · intro e
        rw [ht]
        constructor
        · intro h
          exact ⟨msg, rfl, (Except.error.inj h).symm⟩
        · rintro ⟨msg2, hmsg, he⟩
          cases Except.error.inj hmsg
          rw [he]

/-- Witness for C6 at a concrete input: the primitive `testHash` succeeds on
the empty candidate with digest `[2, 0]`, the stored hash equals it, and
`try_password` answers `Ok(true)`. -/
theorem c6_witness :
    PasswordCypher.tryPassword testHash PasswordCypher.default ⟨[], [2, 0]⟩ [] =
      .ok true :=
  (c6_try_password_result_taxonomy testHash PasswordCypher.default
    ⟨[], [2, 0]⟩ []).2.1.mpr ⟨[2, 0], by decide, by decide⟩

/-- Claim C1 (counterexample): `try_password` does NOT recompute with the
parameters held in the cypher's `argon` field.  With the parameter-sensitive
primitive `testHash`, a cypher configured with `t_cost = 5` and a credential
whose stored hash is the `t_cost = 5` digest, `try_password` (which rebuilds
`Argon2::default()`, `t_cost = 2`) answers `Ok(false)` while recomputing under
the cypher's own parameters would answer `Ok(true)`. -/
theorem c1_counterexample :
    PasswordCypher.tryPassword testHash ⟨⟨19456, 5, 1⟩⟩
        ⟨List.replicate 16 0, [5, 1]⟩ [1] ≠
      PasswordCypher.tryPasswordWithParams testHash
        (PasswordCypher.mk ⟨19456, 5, 1⟩).argon ⟨List.replicate 16 0, [5, 1]⟩ [1] := by
  decide

/-- Claim C1 (amended): `try_password` always recomputes the digest under the
crate-default Argon2 parameters, ignoring the cypher's `argon` field; it
coincides with recomputation under the cypher's own parameters exactly when
that field holds the default configuration. -/
theorem c1_try_password_uses_default_params (H : HashFn) (c : PasswordCypher)
    (p : Password) (s : List Nat) :
    PasswordCypher.tryPassword H c p s =
        PasswordCypher.tryPasswordWithParams H Argon2.default p s ∧
      (c.argon = Argon2.default →
        PasswordCypher.tryPassword H c p s =
          PasswordCypher.tryPasswordWithParams H c.argon p s) := by
  refine ⟨rfl, ?_⟩
  intro h
  rw [h]
  exact rfl

/-- Witness for C1's amended theorem at a concrete input: on the
default-configured cypher the two computations agree. -/
theorem c1_witness :
    PasswordCypher.tryPassword testHash PasswordCypher.default ⟨[], [2, 0]⟩ [] =
      PasswordCypher.tryPasswordWithParams testHash PasswordCypher.default.argon
        ⟨[], [2, 0]⟩ [] :=
  (c1_try_password_uses_default_params testHash PasswordCypher.default
    ⟨[], [2, 0]⟩ []).2 rfl

/-- Claim C2 (counterexample): the round trip fails on a reconfigured cypher.
With the parameter-sensitive primitive `testHash` and a cypher whose `argon`
field has `t_cost = 5`, `encode` succeeds with a stored credential, yet
`try_password` on the very same instance with the very same plaintext answers
`Ok(false)` — because verification rebuilds `Argon2::default()`. -/
theorem c2_counterexample :
    (PasswordCypher.encode testHash ⟨⟨19456, 5, 1⟩⟩ [1] rngZero).1 =
        .ok ⟨List.replicate 16 0, [5, 1]⟩ ∧
      PasswordCypher.tryPassword testHash ⟨⟨19456, 5, 1⟩⟩
        ⟨List.replicate 16 0, [5, 1]⟩ [1] = .ok false :=
  ⟨by decide, by decide⟩

/-- Claim C2 (amended): the round trip holds on the same `PasswordCypher`
instance provided its `argon` field holds the default parameter set — the only
configuration this program ever constructs: whenever `encode` succeeds with
stored credential `S`, `try_password` on `S` with the same plaintext answers
`Ok(true)`. -/
theorem c2_roundtrip_default_params (H : HashFn) (c : PasswordCypher)
    (P : List Nat) (rng : OsRng) (S : Password)
    (hdef : c.argon = Argon2.default)
    (henc : (PasswordCypher.encode H c P rng).1 = .ok S) :
    PasswordCypher.tryPassword H c S P = .ok true := by
  obtain ⟨hsalt, hhash⟩ := (encode_ok_iff H c P rng S).mp henc
  have hP : H Argon2.default P S.salt = .ok S.hash := by
    rw [hsalt, ← hdef]
    exact hhash
  rw [tryPassword_ok H c S P S.hash hP, beq_self_eq_true]

/-- Witness for C2's amended theorem at a concrete input: with the
always-succeeding primitive `constHash` and the default cypher, the credential
stored for plaintext `[1]` verifies against `[1]`. -/
theorem c2_witness :
    PasswordCypher.tryPassword constHash PasswordCypher.default
      ⟨List.replicate 16 0, List.replicate 32 7⟩ [1] = .ok true :=
  c2_roundtrip_default_params constHash PasswordCypher.default [1] rngZero
    ⟨List.replicate 16 0, List.replicate 32 7⟩ rfl (by decide)

/-- Claim C3: a wrong candidate is rejected with `Ok(false)`.  If `encode`
stored credential `S` for plaintext `P`, the primitive succeeds on the
candidate `Q` over the stored salt, and the primitive never gives `P` under
the encoding parameters and `Q` under the default parameters the same result
on any salt (the collision-freeness the trusted Argon2 primitive provides for
`Q ≠ P` up to negligible probability), then `try_password(S, Q)` answers
`Ok(false)`. -/
theorem c3_wrong_candidate_rejected (H : HashFn) (c : PasswordCypher)
    (P Q : List Nat) (rng : OsRng) (S : Password) (d : List Nat)
    (henc : (PasswordCypher.encode H c P rng).1 = .ok S)
    (hq : H Argon2.default Q S.salt = .ok d)
    (hnc : ∀ salt, H c.argon P salt ≠ H Argon2.default Q salt) :
    PasswordCypher.tryPassword H c S Q = .ok false := by
  obtain ⟨hsalt, hhash⟩ := (encode_ok_iff H c P rng S).mp henc
  have hP : H c.argon P S.salt = .ok S.hash := by
    rw [hsalt]
    exact hhash
  have hne : S.hash ≠ d := by
    intro h
    exact hnc S.salt (by rw [hP, hq, h])
  rw [tryPassword_ok H c S Q d hq, beq_false_of_ne hne]

/-- Witness for C3 at a concrete input: under `testHash` the credential stored
for plaintext `[1]` is rejected for the candidate `[1, 2]`. -/
theorem c3_witness :
    PasswordCypher.tryPassword testHash PasswordCypher.default
      ⟨rngZero.draw16, [2, 1]⟩ [1, 2] = .ok false :=
  c3_wrong_candidate_rejected testHash PasswordCypher.default [1] [1, 2] rngZero
    ⟨rngZero.draw16, [2, 1]⟩ [2, 2] (by decide) (by decide)
    (fun _ => by simp [testHash, PasswordCypher.default, Argon2.default])

/-- Every variant's code string belongs to the fixed code set. -/
theorem langProp_mem_codes (l : Language) : l.langProp ∈ languageCodes := by
  cases l <;> decide

/-- Claim C8: parsing a locale code succeeds with a matching variant exactly
when the string is one of the ten fixed language codes, and fails with
`ApplicationError::LanguageNotFound` for every other string — no default
locale is substituted. -/
theorem c8_fromStr_characterisation (s : String) :
    ((∃ l, Language.fromStr s = .ok l ∧ l.langProp = s) ↔ s ∈ languageCodes) ∧
      (s ∉ languageCodes → Language.fromStr s = .error .LanguageNotFound) := by
  constructor
  · constructor
    · rintro ⟨l, -, hprop⟩
      rw [← hprop]
      exact langProp_mem_codes l
    · intro hs
      simp only [languageCodes, List.mem_cons, List.not_mem_nil, or_false] at hs
      rcases hs with h | h | h | h | h | h | h | h | h | h <;> subst h
      exacts [⟨.English, by decide, by decide⟩,
        ⟨.Chinese, by decide, by decide⟩,
        ⟨.Spanish, by decide, by decide⟩,
        ⟨.French, by decide, by decide⟩,
        ⟨.German, by decide, by decide⟩,
        ⟨.Japanese, by decide, by decide⟩,
        ⟨.Portuguese, by decide, by decide⟩,
        ⟨.Russian, by decide, by decide⟩,
        ⟨.Arabic, by decide, by decide⟩,
        ⟨.Korean, by decide, by decide⟩]
  · intro hs
    have hnone : Language.iter.find? (fun l => l.langProp == s) = none := by
      rw [List.find?_eq_none]
      intro x _ hx
      exact hs (by rw [← eq_of_beq hx]; exact langProp_mem_codes x)
    simp [Language.fromStr, hnone]

/-- Witness for C8 at a concrete input: the unrecognised code string `"xx"`
draws the `LanguageNotFound` error. -/
theorem c8_witness :
    Language.fromStr "xx" = .error .LanguageNotFound :=
  (c8_fromStr_characterisation "xx").2 (by decide)

/-- Reading one byte of a 16-byte draw: position `i < 16` of `draw16` is the
stream byte at offset `i` from the read position. -/
theorem draw16_getElem (r : OsRng) (i : Nat) (hi : i < 16) :
    r.draw16[i]? = some (r.stream (r.pos + i) % 256) := by
  simp [OsRng.draw16, List.getElem?_map, List.getElem?_range, hi]

/-- Claim C10: each `encode` call draws a fresh 16-byte salt from the random
source — the salt of a successful call is exactly the 16 bytes at the
generator's read position, the generator leaves advanced by 16, two
successive calls read disjoint stream windows (so their salts differ whenever
the drawn entropy differs anywhere), and the stored hash is the deterministic
digest of (plaintext, salt, configured parameters): two successful encodes of
the same plaintext that happen to draw equal salts store equal hashes. -/
theorem c10_fresh_salt_and_determinism (H : HashFn) (c : PasswordCypher)
    (P : List Nat) (rng : OsRng) :
    ((PasswordCypher.encode H c P rng).2 = ⟨rng.stream, rng.pos + 16⟩) ∧
      (∀ S, (PasswordCypher.encode H c P rng).1 = .ok S →
        S.salt = rng.draw16 ∧ H c.argon P S.salt = .ok S.hash) ∧
      (∀ S1 S2 i, i < 16 →
        (PasswordCypher.encode H c P rng).1 = .ok S1 →
        (PasswordCypher.encode H c P (PasswordCypher.encode H c P rng).2).1 = .ok S2 →
        rng.stream (rng.pos + i) % 256 ≠ rng.stream (rng.pos + 16 + i) % 256 →
        S1.salt ≠ S2.salt) ∧
      (∀ rngB SA SB, (PasswordCypher.encode H c P rng).1 = .ok SA →
        (PasswordCypher.encode H c P rngB).1 = .ok SB →
        SA.salt = SB.salt → SA.hash = SB.hash) := by
  refine ⟨encode_snd H c P rng, ?_, ?_, ?_⟩
  · intro S h
    obtain ⟨hsalt, hhash⟩ := (encode_ok_iff H c P rng S).mp h
    refine ⟨hsalt, ?_⟩
    rw [hsalt]
    exact hhash
  · intro S1 S2 i hi h1 h2 hstream heq
    obtain ⟨hs1, -⟩ := (encode_ok_iff H c P rng S1).mp h1
    rw [encode_snd] at h2
    obtain ⟨hs2, -⟩ := (encode_ok_iff H c P ⟨rng.stream, rng.pos + 16⟩ S2).mp h2
    apply hstream
    have hdraw : rng.draw16 = OsRng.draw16 ⟨rng.stream, rng.pos + 16⟩ := by
      rw [← hs1, ← hs2, heq]
    have h3 := congrArg (fun l => l[i]?) hdraw
    simp only [draw16_getElem rng i hi,
      draw16_getElem ⟨rng.stream, rng.pos + 16⟩ i hi] at h3
    exact Option.some.inj h3
  · intro rngB SA SB hA hB hsalt
    obtain ⟨hsA, hhA⟩ := (encode_ok_iff H c P rng SA).mp hA
    obtain ⟨hsB, hhB⟩ := (encode_ok_iff H c P rngB SB).mp hB
    have e1 : H c.argon P SA.salt = .ok SA.hash := by
      rw [hsA]
      exact hhA
    have e2 : H c.argon P SA.salt = .ok SB.hash := by
      rw [hsalt, hsB]
      exact hhB
    rw [e1] at e2
    exact Except.ok.inj e2

/-- Witness for C10 at a concrete input: with the identity stream, the salts
drawn by two successive `encode` calls (windows 0..15 and 16..31) differ. -/
theorem c10_witness :
    rngId.draw16 ≠ OsRng.draw16 ⟨rngId.stream, rngId.pos + 16⟩ :=
  (c10_fresh_salt_and_determinism constHash PasswordCypher.default [1] rngId).2.2.1
    ⟨rngId.draw16, List.replicate 32 7⟩
    ⟨OsRng.draw16 ⟨rngId.stream, rngId.pos + 16⟩, List.replicate 32 7⟩
    0 (by decide) (by decide) (by decide) (by decide)

end SecureApp
